import Mathlib

/-!
Verification of the AutoStream stream-accrual engine
(`packages/contracts` StreamManager, Massa smart contract).

The contract stores per-stream records and mutates them through
`createStream`, `processStreamPayment`, `cancelStream`, `pauseStream`,
`resumeStream`, and reads them through `getWithdrawableAmount`.

Embedding conventions:
* `Address` values are plain strings; `Address.equals` is string equality.
* `u64` quantities are modelled as `Nat`.  The contract source is
  AssemblyScript-style `u64` arithmetic with truncating division; all
  subtractions in the source (`totalAmount - withdrawnAmount`,
  `currentTime - lastPaymentTime`) occur in states where the minuend
  dominates, so Nat truncated subtraction agrees with `u64` there.
* `assert(cond, msg)` aborts the whole call leaving storage untouched
  (Massa transaction semantics); this is modelled by returning
  `Except.error msg` and, at the trace level, by keeping the pre-state
  when an operation returns an error.
* `transferCoins` and the deferred-call re-arm (`scheduleNextPayment`)
  are effects; the per-call results record the amount transferred and
  the requested re-arm delay (in milliseconds), as the source passes
  `intervalSeconds * 1000` to `call`.
-/

namespace AutoStream

/-- `StreamData` record, mirroring the contract class field for field
(addresses as strings, `u64` as `Nat`, `u8 streamType` as `Nat`). -/
structure StreamData where
  sender : String
  recipient : String
  startTime : Nat
  endTime : Nat
  ratePerSecond : Nat
  lastPaymentTime : Nat
  totalAmount : Nat
  withdrawnAmount : Nat
  isPaused : Bool
  isCancelled : Bool
  streamType : Nat
  intervalSeconds : Nat
deriving Repr, DecidableEq

/-- Result of a successful `processStreamPayment` call: the updated
record, the coins transferred to `stream.recipient` during the call
(`0` when no transfer happened), and the delay in milliseconds of the
deferred self-call when the function re-armed (`none` when it did not). -/
structure PayResult where
  stream : StreamData
  paid : Nat
  rearm : Option Nat
deriving Repr, DecidableEq

/-- Result of a successful `cancelStream` call: the updated record and
the coins refunded to `stream.sender` (`0` when nothing remained). -/
structure CancelResult where
  stream : StreamData
  refund : Nat
deriving Repr, DecidableEq

/-- The accrual formula of the contract:
`(currentTime - lastPaymentTime) * ratePerSecond / 1000` (truncating),
the local `paymentAmount` of `processStreamPayment` and the local
`earnedAmount` of `getWithdrawableAmount`. -/
def paymentAmount (s : StreamData) (now : Nat) : Nat :=
  (now - s.lastPaymentTime) * s.ratePerSecond / 1000

/-- `processStreamPayment` (contract lines 181-244) on an existing
record.  The `Storage.get` existence assert is handled by the ledger
wrapper; `now` is `Time.timestamp()`. -/
def processStreamPayment (s : StreamData) (now : Nat) : Except String PayResult :=
  if s.isCancelled then Except.error "Stream is cancelled"
  else if s.isPaused then Except.error "Stream is paused"
  else if s.endTime ≤ now then
    -- final payment: pay the remainder (when any), mark the stream completed, no re-arm
    if 0 < s.totalAmount - s.withdrawnAmount then
      Except.ok { stream := { s with withdrawnAmount := s.totalAmount, isCancelled := true },
                  paid := s.totalAmount - s.withdrawnAmount, rearm := none }
    else
      Except.ok { stream := { s with isCancelled := true }, paid := 0, rearm := none }
  else
    if 0 < paymentAmount s now ∧ s.withdrawnAmount + paymentAmount s now ≤ s.totalAmount then
      Except.ok { stream := { s with withdrawnAmount := s.withdrawnAmount + paymentAmount s now,
                                     lastPaymentTime := now },
                  paid := paymentAmount s now, rearm := some (s.intervalSeconds * 1000) }
    else
      -- zero accrual or overshoot: no transfer, no record update, still re-arm
      Except.ok { stream := s, paid := 0, rearm := some (s.intervalSeconds * 1000) }

/-- `cancelStream` (contract lines 249-280) on an existing record. -/
def cancelStream (s : StreamData) (caller : String) : Except String CancelResult :=
  if s.sender = caller then
    if s.isCancelled then Except.error "Stream already cancelled"
    else
      let remainingAmount := s.totalAmount - s.withdrawnAmount
      Except.ok { stream := { s with isCancelled := true }, refund := remainingAmount }
  else Except.error "Only stream creator can cancel"

/-- `pauseStream` (contract lines 285-303) on an existing record. -/
def pauseStream (s : StreamData) (caller : String) : Except String StreamData :=
  if s.sender = caller then
    if s.isCancelled then Except.error "Stream is cancelled"
    else if s.isPaused then Except.error "Stream already paused"
    else Except.ok { s with isPaused := true }
  else Except.error "Only stream creator can pause"

/-- `resumeStream` (contract lines 308-330) on an existing record; it
also re-arms the trigger (`scheduleNextPayment`), which has no effect
on the record itself. -/
def resumeStream (s : StreamData) (caller : String) (now : Nat) : Except String StreamData :=
  if s.sender = caller then
    if s.isCancelled then Except.error "Stream is cancelled"
    else if s.isPaused = false then Except.error "Stream is not paused"
    else Except.ok { s with isPaused := false, lastPaymentTime := now }
  else Except.error "Only stream creator can resume"

/-- `getWithdrawableAmount` (contract lines 363-384) on an existing
record: the source returns `earned > max ? max : earned`. -/
def getWithdrawableAmount (s : StreamData) (now : Nat) : Nat :=
  if s.isCancelled || s.isPaused then 0
  else
    if s.totalAmount - s.withdrawnAmount < paymentAmount s now then
      s.totalAmount - s.withdrawnAmount
    else paymentAmount s now

/-- Contract storage: the `stream_<id>` records and the
`stream_counter` value. -/
structure Ledger where
  streams : Nat → Option StreamData
  streamCounter : Nat

/-- Storage right after the contract constructor: counter `0`, no
stream records. -/
def emptyLedger : Ledger := { streams := fun _ => none, streamCounter := 0 }

/-- `createStream` (contract lines 112-176).  `caller` is
`Context.caller()`, `totalAmount` is `Context.transferredCoins().amount`,
`now` is `Time.timestamp()`.  The `u64` comparisons `x > 0` fail exactly
when `x = 0`.  All asserts precede every storage write, so a failed call
returns the ledger unchanged. -/
def createStream (L : Ledger) (caller recipient : String)
    (duration streamType intervalSeconds totalAmount now : Nat) :
    Ledger × Except String Nat :=
  if totalAmount = 0 then (L, Except.error "Must send coins to create stream")
  else if duration = 0 then (L, Except.error "Duration must be positive")
  else if intervalSeconds = 0 then (L, Except.error "Interval must be positive")
  else
    if totalAmount / duration = 0 then (L, Except.error "Rate per second must be positive")
    else
      let newStreamId := L.streamCounter + 1
      let stream : StreamData :=
        { sender := caller
          recipient := recipient
          startTime := now
          endTime := now + duration * 1000
          ratePerSecond := totalAmount / duration
          lastPaymentTime := now
          totalAmount := totalAmount
          withdrawnAmount := 0
          isPaused := false
          isCancelled := false
          streamType := streamType
          intervalSeconds := intervalSeconds }
      ({ streams := fun i => if i = newStreamId then some stream else L.streams i,
         streamCounter := newStreamId },
       Except.ok newStreamId)

/-- Ledger-level `getWithdrawableAmount`: looks the record up
(`assert(streamData.length > 0)`) and performs no storage write, so the
ledger component of the result is always the input ledger. -/
def getWithdrawableAmountL (L : Ledger) (streamId now : Nat) :
    Ledger × Except String Nat :=
  match L.streams streamId with
  | none => (L, Except.error "Stream not found")
  | some s => (L, Except.ok (getWithdrawableAmount s now))

/-- A stream record together with the cumulative outgoing transfers the
contract has made for it: coins paid to its recipient and coins
refunded to its sender. -/
structure Account where
  stream : StreamData
  recipientPaid : Nat
  senderRefunded : Nat
deriving Repr, DecidableEq

/-- One engine operation on a single stream.  Payment and resume carry
the `Time.timestamp()` value observed during the call. -/
inductive Op where
  | pay (now : Nat)
  | cancel (caller : String)
  | pause (caller : String)
  | resume (caller : String) (now : Nat)
deriving Repr, DecidableEq

/-- Transactional application of one operation: a call that asserts
(returns an error) aborts and leaves storage and balances untouched. -/
def applyOp (a : Account) (op : Op) : Account :=
  match op with
  | Op.pay now =>
    match processStreamPayment a.stream now with
    | Except.ok r => { stream := r.stream, recipientPaid := a.recipientPaid + r.paid,
                       senderRefunded := a.senderRefunded }
    | Except.error _ => a
  | Op.cancel caller =>
    match cancelStream a.stream caller with
    | Except.ok r => { stream := r.stream, recipientPaid := a.recipientPaid,
                       senderRefunded := a.senderRefunded + r.refund }
    | Except.error _ => a
  | Op.pause caller =>
    match pauseStream a.stream caller with
    | Except.ok s1 => { a with stream := s1 }
    | Except.error _ => a
  | Op.resume caller now =>
    match resumeStream a.stream caller now with
    | Except.ok s1 => { a with stream := s1 }
    | Except.error _ => a

/-- Run a sequence of operations on a stream. -/
def runOps (a : Account) (ops : List Op) : Account := ops.foldl applyOp a

/-- The timestamp an operation observes, `t` being the clock value
before it (cancel and pause do not read the clock). -/
def opClock (t : Nat) : Op → Nat
  | Op.pay now => now
  | Op.resume _ now => now
  | _ => t

/-- The clock reading after a sequence of operations starting at `t`. -/
def finalClock (t : Nat) (ops : List Op) : Nat := ops.foldl opClock t

/-- The Clock-collaborator contract: the timestamps observed along the
operation sequence never decrease, starting from clock value `t`. -/
def timesMono : Nat → List Op → Bool
  | _, [] => true
  | t, op :: rest => decide (t ≤ opClock t op) && timesMono (opClock t op) rest

/-- Bookkeeping invariant tying a stream record to the outgoing
transfers the contract has made for it: coins paid to the recipient
track `withdrawnAmount`, `withdrawnAmount` stays within `totalAmount`,
and a refund exists only once the stream is cancelled, at which point
payments plus refund account for the whole escrow. -/
def AccInv (a : Account) : Prop :=
  a.recipientPaid = a.stream.withdrawnAmount ∧
  a.stream.withdrawnAmount ≤ a.stream.totalAmount ∧
  (a.stream.isCancelled = false → a.senderRefunded = 0) ∧
  (a.stream.isCancelled = true →
    a.recipientPaid + a.senderRefunded = a.stream.totalAmount)

/-- The concrete fixture of the test suite and of the testable
properties in the spec: 3600 coins over 3600 seconds (rate 1/s),
interval 60 s, created at clock 0. -/
def demoStream : StreamData :=
  { sender := "AS1TestSender123", recipient := "AS1RecipientTest123", startTime := 0,
    endTime := 3600000, ratePerSecond := 1, lastPaymentTime := 0, totalAmount := 3600,
    withdrawnAmount := 0, isPaused := false, isCancelled := false, streamType := 0,
    intervalSeconds := 60 }

end AutoStream

namespace AutoStream

/-- Case analysis of a successful `processStreamPayment` call: the
stream was neither cancelled nor paused, and the call was either the
final payment (at or past `endTime`, no re-arm) or a regular tick
(before `endTime`, re-armed), each with the exact record update and
transfer the contract performs. -/
lemma pay_ok_cases (s : StreamData) (now : Nat) (r : PayResult)
    (h : processStreamPayment s now = Except.ok r) :
    s.isCancelled = false ∧ s.isPaused = false ∧
    ((s.endTime ≤ now ∧ r.rearm = none ∧
        ((s.withdrawnAmount < s.totalAmount ∧
            r.stream = { s with withdrawnAmount := s.totalAmount, isCancelled := true } ∧
            r.paid = s.totalAmount - s.withdrawnAmount) ∨
         (s.totalAmount ≤ s.withdrawnAmount ∧
            r.stream = { s with isCancelled := true } ∧ r.paid = 0))) ∨
     (now < s.endTime ∧ r.rearm = some (s.intervalSeconds * 1000) ∧
        ((0 < paymentAmount s now ∧
            s.withdrawnAmount + paymentAmount s now ≤ s.totalAmount ∧
            r.stream = { s with withdrawnAmount := s.withdrawnAmount + paymentAmount s now,
                                lastPaymentTime := now } ∧
            r.paid = paymentAmount s now) ∨
         (¬(0 < paymentAmount s now ∧
              s.withdrawnAmount + paymentAmount s now ≤ s.totalAmount) ∧
            r.stream = s ∧ r.paid = 0)))) := by
  unfold processStreamPayment at h
  split_ifs at h with h1 h2 h3 h4 h5
  · injection h with h'
    subst h'
    exact ⟨by simp_all, by simp_all, Or.inl ⟨h3, rfl, Or.inl ⟨by omega, rfl, rfl⟩⟩⟩
  · injection h with h'
    subst h'
    exact ⟨by simp_all, by simp_all, Or.inl ⟨h3, rfl, Or.inr ⟨by omega, rfl, rfl⟩⟩⟩
  · injection h with h'
    subst h'
    exact ⟨by simp_all, by simp_all, Or.inr ⟨by omega, rfl, Or.inl ⟨h5.1, h5.2, rfl, rfl⟩⟩⟩
  · injection h with h'
    subst h'
    exact ⟨by simp_all, by simp_all, Or.inr ⟨by omega, rfl, Or.inr ⟨h5, rfl, rfl⟩⟩⟩

end AutoStream

namespace AutoStream

/-- A successful `cancelStream` call was made by the sender on a
non-cancelled stream, only flips `isCancelled`, and refunds exactly the
unpaid remainder. -/
lemma cancel_ok_cases (s : StreamData) (caller : String) (r : CancelResult)
    (h : cancelStream s caller = Except.ok r) :
    s.sender = caller ∧ s.isCancelled = false ∧
    r.stream = { s with isCancelled := true } ∧
    r.refund = s.totalAmount - s.withdrawnAmount := by
  unfold cancelStream at h
  split_ifs at h with h1 h2
  · injection h with h'
    subst h'
    exact ⟨h1, by simp_all, rfl, rfl⟩

/-- A successful `pauseStream` call was made by the sender on an
active stream and only flips `isPaused`. -/
lemma pause_ok_cases (s : StreamData) (caller : String) (s1 : StreamData)
    (h : pauseStream s caller = Except.ok s1) :
    s.sender = caller ∧ s.isCancelled = false ∧ s.isPaused = false ∧
    s1 = { s with isPaused := true } := by
  unfold pauseStream at h
  split_ifs at h with h1 h2 h3
  · injection h with h'
    subst h'
    exact ⟨h1, by simp_all, by simp_all, rfl⟩

/-- A successful `resumeStream` call was made by the sender on a
paused, non-cancelled stream, clears `isPaused` and resets
`lastPaymentTime` to the current time. -/
lemma resume_ok_cases (s : StreamData) (caller : String) (now : Nat) (s1 : StreamData)
    (h : resumeStream s caller now = Except.ok s1) :
    s.sender = caller ∧ s.isCancelled = false ∧ s.isPaused = true ∧
    s1 = { s with isPaused := false, lastPaymentTime := now } := by
  unfold resumeStream at h
  split_ifs at h with h1 h2 h3
  · injection h with h'
    subst h'
    exact ⟨h1, by simp_all, by simp_all, rfl⟩

end AutoStream

namespace AutoStream


/-- No operation changes `totalAmount`. -/
lemma applyOp_totalAmount (a : Account) (op : Op) :
    (applyOp a op).stream.totalAmount = a.stream.totalAmount := by
  cases op with
  | pay now =>
    cases heq : processStreamPayment a.stream now with
    | error e => simp [applyOp, heq]
    | ok r =>
      have hc := pay_ok_cases _ _ _ heq
      simp only [applyOp, heq]
      rcases hc with ⟨-, -, ⟨-, -, ⟨-, hr, -⟩ | ⟨-, hr, -⟩⟩ | ⟨-, -, ⟨-, -, hr, -⟩ | ⟨-, hr, -⟩⟩⟩ <;>
        simp [hr]
  | cancel caller =>
    cases heq : cancelStream a.stream caller with
    | error e => simp [applyOp, heq]
    | ok r =>
      have hc := cancel_ok_cases _ _ _ heq
      simp only [applyOp, heq]
      simp [hc.2.2.1]
  | pause caller =>
    cases heq : pauseStream a.stream caller with
    | error e => simp [applyOp, heq]
    | ok s1 =>
      have hc := pause_ok_cases _ _ _ heq
      simp only [applyOp, heq]
      simp [hc.2.2.2]
  | resume caller now =>
    cases heq : resumeStream a.stream caller now with
    | error e => simp [applyOp, heq]
    | ok s1 =>
      have hc := resume_ok_cases _ _ _ _ heq
      simp only [applyOp, heq]
      simp [hc.2.2.2]

/-- Every operation preserves the bookkeeping invariant. -/
lemma applyOp_inv (a : Account) (op : Op) (h : AccInv a) : AccInv (applyOp a op) := by
  obtain ⟨h1, h2, h3, h4⟩ := h
  cases op with
  | pay now =>
    cases heq : processStreamPayment a.stream now with
    | error e => simpa [applyOp, heq] using ⟨h1, h2, h3, h4⟩
    | ok r =>
      have hc := pay_ok_cases _ _ _ heq
      simp only [applyOp, heq]
      obtain ⟨hcf, -, hbr⟩ := hc
      have hz := h3 hcf
      rcases hbr with ⟨-, -, ⟨hlt, hr, hp⟩ | ⟨hge, hr, hp⟩⟩ |
        ⟨-, -, ⟨hpos, hle, hr, hp⟩ | ⟨-, hr, hp⟩⟩ <;>
        refine ⟨?_, ?_, ?_, ?_⟩ <;> simp [hr, hp, hcf, hz] <;> omega
  | cancel caller =>
    cases heq : cancelStream a.stream caller with
    | error e => simpa [applyOp, heq] using ⟨h1, h2, h3, h4⟩
    | ok r =>
      have hc := cancel_ok_cases _ _ _ heq
      simp only [applyOp, heq]
      obtain ⟨-, hcf, hr, hp⟩ := hc
      have hz := h3 hcf
      refine ⟨?_, ?_, ?_, ?_⟩ <;> simp [hr, hp, hcf, hz] <;> omega
  | pause caller =>
    cases heq : pauseStream a.stream caller with
    | error e => simpa [applyOp, heq] using ⟨h1, h2, h3, h4⟩
    | ok s1 =>
      have hc := pause_ok_cases _ _ _ heq
      simp only [applyOp, heq]
      obtain ⟨-, hcf, -, hr⟩ := hc
      have hz := h3 hcf
      exact ⟨by simp [hr, h1], by simp [hr, h2], by simp [hr, hcf, hz], by simp [hr, hcf]⟩
  | resume caller now =>
    cases heq : resumeStream a.stream caller now with
    | error e => simpa [applyOp, heq] using ⟨h1, h2, h3, h4⟩
    | ok s1 =>
      have hc := resume_ok_cases _ _ _ _ heq
      simp only [applyOp, heq]
      obtain ⟨-, hcf, -, hr⟩ := hc
      have hz := h3 hcf
      exact ⟨by simp [hr, h1], by simp [hr, h2], by simp [hr, hcf, hz], by simp [hr, hcf]⟩

end AutoStream

namespace AutoStream

/-- On a cancelled stream every operation aborts, so the
transactional state is untouched. -/
lemma applyOp_cancelled (a : Account) (op : Op) (h : a.stream.isCancelled = true) :
    applyOp a op = a := by
  cases op with
  | pay now => simp [applyOp, processStreamPayment, h]
  | cancel caller =>
    simp only [applyOp, cancelStream, h]
    split_ifs <;> rfl
  | pause caller =>
    simp only [applyOp, pauseStream, h]
    split_ifs <;> rfl
  | resume caller now =>
    simp only [applyOp, resumeStream, h]
    split_ifs <;> rfl

/-- One step keeps `withdrawnAmount` and `lastPaymentTime`
non-decreasing and leaves the checkpoint at or before the clock,
provided the clock has not run backwards past the checkpoint. -/
lemma applyOp_mono (a : Account) (op : Op) (t : Nat)
    (hlpt : a.stream.lastPaymentTime ≤ t) (hop : t ≤ opClock t op) :
    a.stream.withdrawnAmount ≤ (applyOp a op).stream.withdrawnAmount ∧
    a.stream.lastPaymentTime ≤ (applyOp a op).stream.lastPaymentTime ∧
    (applyOp a op).stream.lastPaymentTime ≤ opClock t op := by
  cases op with
  | pay now =>
    simp only [opClock] at hop ⊢
    cases heq : processStreamPayment a.stream now with
    | error e =>
      simp only [applyOp, heq]
      exact ⟨le_refl _, le_refl _, le_trans hlpt hop⟩
    | ok r =>
      have hc := pay_ok_cases _ _ _ heq
      simp only [applyOp, heq]
      rcases hc with ⟨-, -, ⟨-, -, ⟨hlt, hr, -⟩ | ⟨hge, hr, -⟩⟩ |
        ⟨-, -, ⟨-, -, hr, -⟩ | ⟨-, hr, -⟩⟩⟩ <;> simp [hr] <;> omega
  | cancel caller =>
    simp only [opClock] at hop ⊢
    cases heq : cancelStream a.stream caller with
    | error e =>
      simp only [applyOp, heq]
      exact ⟨le_refl _, le_refl _, le_trans hlpt hop⟩
    | ok r =>
      have hc := cancel_ok_cases _ _ _ heq
      simp only [applyOp, heq]
      simp [hc.2.2.1]
      omega
  | pause caller =>
    simp only [opClock] at hop ⊢
    cases heq : pauseStream a.stream caller with
    | error e =>
      simp only [applyOp, heq]
      exact ⟨le_refl _, le_refl _, le_trans hlpt hop⟩
    | ok s1 =>
      have hc := pause_ok_cases _ _ _ heq
      simp only [applyOp, heq]
      simp [hc.2.2.2]
      omega
  | resume caller now =>
    simp only [opClock] at hop ⊢
    cases heq : resumeStream a.stream caller now with
    | error e =>
      simp only [applyOp, heq]
      exact ⟨le_refl _, le_refl _, le_trans hlpt hop⟩
    | ok s1 =>
      have hc := resume_ok_cases _ _ _ _ heq
      simp only [applyOp, heq]
      simp [hc.2.2.2]
      omega

/-- Unfolding lemma for `runOps`. -/
lemma runOps_cons (a : Account) (op : Op) (ops : List Op) :
    runOps a (op :: ops) = runOps (applyOp a op) ops := rfl

/-- `runOps` splits over list append. -/
lemma runOps_append (a : Account) (l1 l2 : List Op) :
    runOps a (l1 ++ l2) = runOps (runOps a l1) l2 :=
  List.foldl_append _ _ _ _

/-- The bookkeeping invariant is preserved by whole sequences. -/
lemma runOps_inv (a : Account) (ops : List Op) (h : AccInv a) :
    AccInv (runOps a ops) := by
  induction ops generalizing a with
  | nil => exact h
  | cons op rest ih => exact ih _ (applyOp_inv _ _ h)

/-- `totalAmount` is constant across whole sequences. -/
lemma runOps_totalAmount (a : Account) (ops : List Op) :
    (runOps a ops).stream.totalAmount = a.stream.totalAmount := by
  induction ops generalizing a with
  | nil => rfl
  | cons op rest ih => rw [runOps_cons, ih, applyOp_totalAmount]

/-- A cancelled stream is a fixed point of every sequence. -/
lemma runOps_cancelled (a : Account) (ops : List Op) (h : a.stream.isCancelled = true) :
    runOps a ops = a := by
  induction ops with
  | nil => rfl
  | cons op rest ih => rw [runOps_cons, applyOp_cancelled _ _ h, ih]

/-- Along a sequence with non-decreasing timestamps,
`withdrawnAmount` and `lastPaymentTime` never decrease, and the final
checkpoint is at or before the final clock reading. -/
lemma runOps_mono (ops : List Op) : ∀ (t : Nat) (a : Account),
    a.stream.lastPaymentTime ≤ t → timesMono t ops = true →
    a.stream.withdrawnAmount ≤ (runOps a ops).stream.withdrawnAmount ∧
    a.stream.lastPaymentTime ≤ (runOps a ops).stream.lastPaymentTime ∧
    (runOps a ops).stream.lastPaymentTime ≤ finalClock t ops := by
  induction ops with
  | nil => exact fun t a hlpt _ => ⟨le_refl _, le_refl _, hlpt⟩
  | cons op rest ih =>
    intro t a hlpt hm
    rw [timesMono] at hm
    rw [Bool.and_eq_true, decide_eq_true_eq] at hm
    obtain ⟨hop, hrest⟩ := hm
    have hstep := applyOp_mono a op t hlpt hop
    have htail := ih (opClock t op) (applyOp a op) hstep.2.2 hrest
    rw [runOps_cons]
    exact ⟨le_trans hstep.1 htail.1, le_trans hstep.2.1 htail.2.1, htail.2.2⟩

/-- `finalClock` splits over list append. -/
lemma finalClock_append (t : Nat) (l1 l2 : List Op) :
    finalClock t (l1 ++ l2) = finalClock (finalClock t l1) l2 :=
  List.foldl_append _ _ _ _

/-- `timesMono` splits over list append. -/
lemma timesMono_append (l1 l2 : List Op) : ∀ t : Nat,
    timesMono t (l1 ++ l2) = (timesMono t l1 && timesMono (finalClock t l1) l2) := by
  induction l1 with
  | nil => intro t; simp [timesMono, finalClock]
  | cons op rest ih =>
    intro t
    rw [List.cons_append, timesMono, timesMono, ih]
    have : finalClock t (op :: rest) = finalClock (opClock t op) rest := rfl
    rw [this, Bool.and_assoc]

end AutoStream

namespace AutoStream


/-- Claim C1 (conservation): starting from a freshly created stream
(`withdrawnAmount = 0`, not cancelled), for every operation sequence,
`withdrawnAmount` never exceeds `totalAmount` at any observable state
(any initial segment of the sequence), and once the stream is in the terminal
cancelled state, the coins transferred to the recipient plus the refund
to the sender equal exactly `totalAmount`. -/
theorem conservation_of_funds (s : StreamData) (hw : s.withdrawnAmount = 0)
    (hc : s.isCancelled = false) (ops pre suf : List Op) (_hsplit : ops = pre ++ suf) :
    (runOps ⟨s, 0, 0⟩ pre).stream.withdrawnAmount ≤ s.totalAmount ∧
    ((runOps ⟨s, 0, 0⟩ ops).stream.isCancelled = true →
      (runOps ⟨s, 0, 0⟩ ops).recipientPaid + (runOps ⟨s, 0, 0⟩ ops).senderRefunded =
        s.totalAmount) := by
  have h0 : AccInv ⟨s, 0, 0⟩ := by
    refine ⟨hw.symm, ?_, fun _ => rfl, fun hcan => ?_⟩
    · simp [hw]
    · rw [hc] at hcan
      simp at hcan
  constructor
  · have hp := runOps_inv ⟨s, 0, 0⟩ pre h0
    have ht := runOps_totalAmount ⟨s, 0, 0⟩ pre
    calc (runOps ⟨s, 0, 0⟩ pre).stream.withdrawnAmount
        ≤ (runOps ⟨s, 0, 0⟩ pre).stream.totalAmount := hp.2.1
      _ = s.totalAmount := ht
  · intro hcan
    have ho := runOps_inv ⟨s, 0, 0⟩ ops h0
    have ht := runOps_totalAmount ⟨s, 0, 0⟩ ops
    rw [ho.2.2.2 hcan, ht]

/-- Witness for the conservation theorem on the demo stream: one
payment at 60 s followed by a cancel by the sender. -/
theorem conservation_of_funds_witness :
    (runOps ⟨demoStream, 0, 0⟩ [Op.pay 60000]).stream.withdrawnAmount ≤
        demoStream.totalAmount ∧
    ((runOps ⟨demoStream, 0, 0⟩
        ([Op.pay 60000] ++ [Op.cancel "AS1TestSender123"])).stream.isCancelled = true →
      (runOps ⟨demoStream, 0, 0⟩
          ([Op.pay 60000] ++ [Op.cancel "AS1TestSender123"])).recipientPaid +
        (runOps ⟨demoStream, 0, 0⟩
          ([Op.pay 60000] ++ [Op.cancel "AS1TestSender123"])).senderRefunded =
        demoStream.totalAmount) :=
  conservation_of_funds demoStream rfl rfl _
    [Op.pay 60000] [Op.cancel "AS1TestSender123"] rfl

end AutoStream

namespace AutoStream

/-- Claim C2 (final payment): on a stream that is neither cancelled
nor paused, with `now` at or past `endTime` and `withdrawnAmount` within
`totalAmount` (data-model invariant 1), `processStreamPayment` transfers
exactly `totalAmount - withdrawnAmount`, sets
`withdrawnAmount = totalAmount`, marks the stream cancelled, and does
not re-arm the trigger. -/
theorem final_payment_caps_at_total (s : StreamData) (now : Nat)
    (hc : s.isCancelled = false) (hp : s.isPaused = false)
    (he : s.endTime ≤ now) (hw : s.withdrawnAmount ≤ s.totalAmount) :
    ∃ r, processStreamPayment s now = Except.ok r ∧
      r.paid = s.totalAmount - s.withdrawnAmount ∧
      r.stream.withdrawnAmount = s.totalAmount ∧
      r.stream.totalAmount = s.totalAmount ∧
      r.stream.isCancelled = true ∧
      r.rearm = none := by
  by_cases h4 : 0 < s.totalAmount - s.withdrawnAmount
  · have hr : processStreamPayment s now =
        Except.ok { stream := { s with withdrawnAmount := s.totalAmount, isCancelled := true },
                    paid := s.totalAmount - s.withdrawnAmount, rearm := none } := by
      unfold processStreamPayment
      simp [hc, hp, he, h4]
    exact ⟨_, hr, rfl, rfl, rfl, rfl, rfl⟩
  · have hr : processStreamPayment s now =
        Except.ok { stream := { s with isCancelled := true }, paid := 0, rearm := none } := by
      unfold processStreamPayment
      simp [hc, hp, he, h4]
    exact ⟨_, hr, by simp; omega, by simp; omega, rfl, rfl, rfl⟩

/-- Witness for the final-payment theorem: the demo stream processed
at 7,200,000 ms, two hours past creation and one hour past `endTime`. -/
theorem final_payment_caps_at_total_witness :
    ∃ r, processStreamPayment demoStream 7200000 = Except.ok r ∧
      r.paid = demoStream.totalAmount - demoStream.withdrawnAmount ∧
      r.stream.withdrawnAmount = demoStream.totalAmount ∧
      r.stream.totalAmount = demoStream.totalAmount ∧
      r.stream.isCancelled = true ∧
      r.rearm = none :=
  final_payment_caps_at_total demoStream 7200000 rfl rfl (by decide) (by decide)

/-- Claim C10 (overshoot frame): before `endTime`, on an active
stream, when the computed amount is positive but would push
`withdrawnAmount` past `totalAmount`, `processStreamPayment` transfers
nothing, returns the record exactly unchanged, and still re-arms the
trigger with the stream interval. -/
theorem overshoot_skip_frame (s : StreamData) (now : Nat)
    (hc : s.isCancelled = false) (hp : s.isPaused = false) (hlt : now < s.endTime)
    (_hpos : 0 < paymentAmount s now)
    (hover : s.totalAmount < s.withdrawnAmount + paymentAmount s now) :
    processStreamPayment s now =
      Except.ok { stream := s, paid := 0, rearm := some (s.intervalSeconds * 1000) } := by
  have hg : ¬(0 < paymentAmount s now ∧
      s.withdrawnAmount + paymentAmount s now ≤ s.totalAmount) := by omega
  unfold processStreamPayment
  simp [hc, hp, Nat.not_le.mpr hlt, hg]

/-- Witness for the overshoot frame theorem: the demo stream with
3590 already withdrawn, processed at 60 s (60 more would exceed 3600). -/
theorem overshoot_skip_frame_witness :
    processStreamPayment { demoStream with withdrawnAmount := 3590 } 60000 =
      Except.ok { stream := { demoStream with withdrawnAmount := 3590 }, paid := 0,
                  rearm := some ({ demoStream with withdrawnAmount := 3590 }.intervalSeconds * 1000) } :=
  overshoot_skip_frame { demoStream with withdrawnAmount := 3590 } 60000
    rfl rfl (by decide) (by decide) (by decide)

end AutoStream

namespace AutoStream

/-- Claim C3 (rate correctness): `createStream` stores
`ratePerSecond = totalAmount / durationSeconds` (truncating division); a
regular payment before `endTime` (with positive, in-cap amount) pays
`(now - lastPaymentTime) * ratePerSecond / 1000` and advances the
record accordingly; concretely, 3600 coins over 3600 s give rate 1 and
a single payment 60,000 ms after creation leaves
`withdrawnAmount = 60`. -/
theorem rate_and_regular_payment :
    (∀ (L : Ledger) (caller recipient : String)
        (duration streamType intervalSeconds totalAmount now : Nat)
        (L1 : Ledger) (id : Nat),
      createStream L caller recipient duration streamType intervalSeconds totalAmount now
          = (L1, Except.ok id) →
      ∃ s, L1.streams id = some s ∧ s.ratePerSecond = totalAmount / duration) ∧
    (∀ (s : StreamData) (now : Nat),
      s.isCancelled = false → s.isPaused = false → now < s.endTime →
      0 < paymentAmount s now →
      s.withdrawnAmount + paymentAmount s now ≤ s.totalAmount →
      ∃ r, processStreamPayment s now = Except.ok r ∧
        r.paid = (now - s.lastPaymentTime) * s.ratePerSecond / 1000 ∧
        r.stream.withdrawnAmount =
          s.withdrawnAmount + (now - s.lastPaymentTime) * s.ratePerSecond / 1000 ∧
        r.stream.lastPaymentTime = now) ∧
    ((createStream emptyLedger "AS1TestSender123" "AS1RecipientTest123" 3600 0 60 3600 0).2
        = Except.ok 1 ∧
      (createStream emptyLedger "AS1TestSender123" "AS1RecipientTest123" 3600 0 60 3600 0).1.streams 1
        = some demoStream ∧
      demoStream.ratePerSecond = 1 ∧
      ∃ r, processStreamPayment demoStream 60000 = Except.ok r ∧
        r.stream.withdrawnAmount = 60) := by
  refine ⟨?_, ?_, ?_, ?_, rfl, ?_⟩
  · intro L caller recipient duration streamType intervalSeconds totalAmount now L1 id h
    unfold createStream at h
    split_ifs at h with h1 h2 h3 h4 <;> injection h with hL hid
    · exact Except.noConfusion hid
    · exact Except.noConfusion hid
    · exact Except.noConfusion hid
    · exact Except.noConfusion hid
    · injection hid with hid
      subst hL
      subst hid
      refine ⟨{ sender := caller, recipient := recipient, startTime := now,
                endTime := now + duration * 1000, ratePerSecond := totalAmount / duration,
                lastPaymentTime := now, totalAmount := totalAmount, withdrawnAmount := 0,
                isPaused := false, isCancelled := false, streamType := streamType,
                intervalSeconds := intervalSeconds }, by simp, rfl⟩
  · intro s now hc hp hlt hpos hle
    have hg : 0 < paymentAmount s now ∧
        s.withdrawnAmount + paymentAmount s now ≤ s.totalAmount := ⟨hpos, hle⟩
    have hr : processStreamPayment s now =
        Except.ok { stream := { s with withdrawnAmount := s.withdrawnAmount + paymentAmount s now,
                                        lastPaymentTime := now },
                    paid := paymentAmount s now, rearm := some (s.intervalSeconds * 1000) } := by
      unfold processStreamPayment
      simp [hc, hp, Nat.not_le.mpr hlt, hg]
    exact ⟨_, hr, rfl, rfl, rfl⟩
  · rfl
  · rfl
  · exact ⟨{ stream := { demoStream with withdrawnAmount := 60, lastPaymentTime := 60000 },
             paid := 60, rearm := some 60000 }, rfl, rfl⟩

end AutoStream

namespace AutoStream

/-- Witness instantiating the rate-correctness theorem on the
3600-over-3600 fixture. -/
theorem rate_and_regular_payment_witness :
    (∃ s, ((createStream emptyLedger "AS1TestSender123" "AS1RecipientTest123"
        3600 0 60 3600 0).1).streams 1 = some s ∧ s.ratePerSecond = 3600 / 3600) ∧
    (∃ r, processStreamPayment demoStream 60000 = Except.ok r ∧
      r.paid = (60000 - demoStream.lastPaymentTime) * demoStream.ratePerSecond / 1000 ∧
      r.stream.withdrawnAmount = demoStream.withdrawnAmount +
        (60000 - demoStream.lastPaymentTime) * demoStream.ratePerSecond / 1000 ∧
      r.stream.lastPaymentTime = 60000) :=
  ⟨rate_and_regular_payment.1 emptyLedger "AS1TestSender123" "AS1RecipientTest123"
      3600 0 60 3600 0 _ 1 rfl,
   rate_and_regular_payment.2.1 demoStream 60000 rfl rfl (by decide) (by decide) (by decide)⟩

/-- Counterexample to claim C4 as stated: in the Massa contract,
`processStreamPayment` on a paused stream does not absorb the condition
silently, it aborts with the assertion error `Stream is paused`, which
the invoker observes as a failed call. -/
theorem pay_on_paused_stream_errors :
    processStreamPayment { demoStream with isPaused := true } 60000
      = Except.error "Stream is paused" := rfl

/-- Claim C4 as amended: `processStreamPayment` on a paused or
cancelled stream performs no transfer, mutates nothing (the aborted
transaction leaves the account untouched) and does not re-arm, but the
condition is surfaced as an assertion error (`Stream is cancelled` or
`Stream is paused`) propagated to the invoker rather than absorbed. -/
theorem pay_paused_or_cancelled_rejected_no_effect (s : StreamData) (now : Nat)
    (h : s.isPaused = true ∨ s.isCancelled = true) :
    (∃ e, processStreamPayment s now = Except.error e) ∧
    (s.isCancelled = true →
      processStreamPayment s now = Except.error "Stream is cancelled") ∧
    (s.isCancelled = false → s.isPaused = true →
      processStreamPayment s now = Except.error "Stream is paused") ∧
    (∀ a : Account, a.stream = s → applyOp a (Op.pay now) = a) := by
  have hcc : s.isCancelled = true →
      processStreamPayment s now = Except.error "Stream is cancelled" := by
    intro hc
    unfold processStreamPayment
    simp [hc]
  have hpp : s.isCancelled = false → s.isPaused = true →
      processStreamPayment s now = Except.error "Stream is paused" := by
    intro hc hp
    unfold processStreamPayment
    simp [hc, hp]
  have herr : ∃ e, processStreamPayment s now = Except.error e := by
    rcases h with hp | hc
    · cases hcb : s.isCancelled with
      | true => exact ⟨_, hcc hcb⟩
      | false => exact ⟨_, hpp hcb hp⟩
    · exact ⟨_, hcc hc⟩
  refine ⟨herr, hcc, hpp, ?_⟩
  intro a ha
  subst ha
  obtain ⟨e, he⟩ := herr
  simp [applyOp, he]

/-- Witness for the amended C4 theorem: a payment attempt on the
paused demo stream leaves the account unchanged. -/
theorem pay_paused_or_cancelled_witness :
    applyOp ⟨{ demoStream with isPaused := true }, 0, 0⟩ (Op.pay 120000)
      = ⟨{ demoStream with isPaused := true }, 0, 0⟩ :=
  (pay_paused_or_cancelled_rejected_no_effect { demoStream with isPaused := true } 120000
      (Or.inl rfl)).2.2.2 _ rfl

/-- Claim C5 (creation validation): `createStream` fails with the
`InvalidAmount` assert (`Must send coins to create stream`) when
`totalAmount = 0`, the `InvalidDuration` assert when `duration = 0`, the
`InvalidInterval` assert when `intervalSeconds = 0`, and the
`DegenerateRate` assert when `totalAmount / duration = 0` (checks apply
in source order), and every failure returns the ledger unchanged: no
counter increment, no record. -/
theorem createStream_all_or_nothing (L : Ledger) (caller recipient : String)
    (duration streamType intervalSeconds totalAmount now : Nat) :
    (totalAmount = 0 →
      createStream L caller recipient duration streamType intervalSeconds totalAmount now
        = (L, Except.error "Must send coins to create stream")) ∧
    (totalAmount ≠ 0 → duration = 0 →
      createStream L caller recipient duration streamType intervalSeconds totalAmount now
        = (L, Except.error "Duration must be positive")) ∧
    (totalAmount ≠ 0 → duration ≠ 0 → intervalSeconds = 0 →
      createStream L caller recipient duration streamType intervalSeconds totalAmount now
        = (L, Except.error "Interval must be positive")) ∧
    (totalAmount ≠ 0 → duration ≠ 0 → intervalSeconds ≠ 0 → totalAmount / duration = 0 →
      createStream L caller recipient duration streamType intervalSeconds totalAmount now
        = (L, Except.error "Rate per second must be positive")) ∧
    (∀ (L1 : Ledger) (e : String),
      createStream L caller recipient duration streamType intervalSeconds totalAmount now
        = (L1, Except.error e) → L1 = L) := by
  refine ⟨?_, ?_, ?_, ?_, ?_⟩
  · intro h1
    unfold createStream
    simp [h1]
  · intro h1 h2
    unfold createStream
    simp [h1, h2]
  · intro h1 h2 h3
    unfold createStream
    simp [h1, h2, h3]
  · intro h1 h2 h3 h4
    unfold createStream
    simp [h1, h2, h3, h4]
  · intro L1 e h
    unfold createStream at h
    split_ifs at h with h1 h2 h3 h4 <;> injection h with hL hid
    · exact hL.symm
    · exact hL.symm
    · exact hL.symm
    · exact hL.symm
    · exact Except.noConfusion hid

/-- Witness for creation validation: creating with zero transferred
coins fails and leaves the empty ledger intact. -/
theorem createStream_all_or_nothing_witness :
    createStream emptyLedger "AS1TestSender123" "AS1RecipientTest123" 3600 0 60 0 0
      = (emptyLedger, Except.error "Must send coins to create stream") :=
  (createStream_all_or_nothing emptyLedger "AS1TestSender123" "AS1RecipientTest123"
      3600 0 60 0 0).1 rfl

/-- Claim C6 (terminal finality): once `isCancelled` is true, every
operation sequence leaves the account exactly unchanged (so no payment
is ever issued again and the flag never reverts), and each of
`processStreamPayment`, `pauseStream` and `resumeStream` fails with an
assertion error. -/
theorem cancelled_is_terminal (a : Account) (ops : List Op)
    (h : a.stream.isCancelled = true) :
    runOps a ops = a ∧
    (∀ now, processStreamPayment a.stream now = Except.error "Stream is cancelled") ∧
    (∀ caller, ∃ e, pauseStream a.stream caller = Except.error e) ∧
    (∀ caller now, ∃ e, resumeStream a.stream caller now = Except.error e) := by
  refine ⟨runOps_cancelled a ops h, ?_, ?_, ?_⟩
  · intro now
    unfold processStreamPayment
    simp [h]
  · intro caller
    unfold pauseStream
    simp only [h]
    split_ifs <;> exact ⟨_, rfl⟩
  · intro caller now
    unfold resumeStream
    simp only [h]
    split_ifs <;> exact ⟨_, rfl⟩

/-- Witness for terminal finality: a payment attempt on the
cancelled demo stream is a fixed point. -/
theorem cancelled_is_terminal_witness :
    runOps ⟨{ demoStream with isCancelled := true }, 0, 0⟩ [Op.pay 60000]
      = ⟨{ demoStream with isCancelled := true }, 0, 0⟩ :=
  (cancelled_is_terminal ⟨{ demoStream with isCancelled := true }, 0, 0⟩
      [Op.pay 60000] rfl).1

/-- Claim C7 (withdrawable query): for an existing stream,
`getWithdrawableAmount` returns 0 when the stream is paused or
cancelled and otherwise
`min(totalAmount - withdrawnAmount, (now - lastPaymentTime) * ratePerSecond / 1000)`,
and the ledger component of the result is the input ledger: the query
performs no storage write, so any number of calls leaves every record
and the counter unchanged. -/
theorem withdrawable_query_pure_and_correct (L : Ledger) (streamId now : Nat)
    (s : StreamData) (h : L.streams streamId = some s) :
    getWithdrawableAmountL L streamId now =
      (L, Except.ok (if s.isCancelled || s.isPaused then 0
        else min (s.totalAmount - s.withdrawnAmount)
          ((now - s.lastPaymentTime) * s.ratePerSecond / 1000))) := by
  have hval : getWithdrawableAmount s now =
      (if s.isCancelled || s.isPaused then 0
        else min (s.totalAmount - s.withdrawnAmount)
          ((now - s.lastPaymentTime) * s.ratePerSecond / 1000)) := by
    unfold getWithdrawableAmount paymentAmount
    split_ifs with h1 h2 <;> omega
  unfold getWithdrawableAmountL
  rw [h]
  simp [hval]

/-- Witness for the withdrawable query on a one-stream ledger at
60 s. -/
theorem withdrawable_query_witness :
    getWithdrawableAmountL
        { streams := fun i => if i = 1 then some demoStream else none, streamCounter := 1 }
        1 60000
      = ({ streams := fun i => if i = 1 then some demoStream else none, streamCounter := 1 },
         Except.ok (if demoStream.isCancelled || demoStream.isPaused then 0
           else min (demoStream.totalAmount - demoStream.withdrawnAmount)
             ((60000 - demoStream.lastPaymentTime) * demoStream.ratePerSecond / 1000))) :=
  withdrawable_query_pure_and_correct _ 1 60000 demoStream rfl

/-- Claim C8 (authorization): a caller different from the stream
sender has `cancelStream`, `pauseStream` and `resumeStream` rejected
with the `Only stream creator can ...` assert, and the aborted calls
leave the account (hence every record field) unchanged. -/
theorem unauthorized_rejected (s : StreamData) (caller : String)
    (h : caller ≠ s.sender) :
    cancelStream s caller = Except.error "Only stream creator can cancel" ∧
    pauseStream s caller = Except.error "Only stream creator can pause" ∧
    (∀ now, resumeStream s caller now = Except.error "Only stream creator can resume") ∧
    (∀ a : Account, a.stream = s →
      applyOp a (Op.cancel caller) = a ∧
      applyOp a (Op.pause caller) = a ∧
      (∀ now, applyOp a (Op.resume caller now) = a)) := by
  have hs : ¬(s.sender = caller) := fun hh => h hh.symm
  refine ⟨?_, ?_, ?_, ?_⟩
  · unfold cancelStream
    simp [hs]
  · unfold pauseStream
    simp [hs]
  · intro now
    unfold resumeStream
    simp [hs]
  · intro a ha
    subst ha
    refine ⟨?_, ?_, ?_⟩
    · simp [applyOp, cancelStream, hs]
    · simp [applyOp, pauseStream, hs]
    · intro now
      simp [applyOp, resumeStream, hs]

/-- Witness for authorization: `mallory` cannot cancel the demo
stream owned by `AS1TestSender123`. -/
theorem unauthorized_rejected_witness :
    cancelStream demoStream "mallory" = Except.error "Only stream creator can cancel" :=
  (unauthorized_rejected demoStream "mallory" (by decide)).1

/-- Claim C9 (monotonicity): under a monotone non-decreasing clock
(`timesMono`), `withdrawnAmount` and `lastPaymentTime` are
non-decreasing across the stream lifetime: at any initial segment of
the operation sequence they are at most their values after the full
sequence. -/
theorem accrual_monotone (a : Account) (ops pre suf : List Op)
    (hsplit : ops = pre ++ suf)
    (hm : timesMono a.stream.lastPaymentTime ops = true) :
    (runOps a pre).stream.withdrawnAmount ≤ (runOps a ops).stream.withdrawnAmount ∧
    (runOps a pre).stream.lastPaymentTime ≤ (runOps a ops).stream.lastPaymentTime := by
  subst hsplit
  rw [timesMono_append, Bool.and_eq_true] at hm
  have h1 := runOps_mono pre a.stream.lastPaymentTime a (le_refl _) hm.1
  have h2 := runOps_mono suf (finalClock a.stream.lastPaymentTime pre) (runOps a pre)
    h1.2.2 hm.2
  rw [runOps_append]
  exact ⟨h2.1, h2.2.1⟩

/-- Witness for monotonicity: two payments on the demo stream at
60 s and 120 s. -/
theorem accrual_monotone_witness :
    (runOps ⟨demoStream, 0, 0⟩ [Op.pay 60000]).stream.withdrawnAmount ≤
      (runOps ⟨demoStream, 0, 0⟩ ([Op.pay 60000] ++ [Op.pay 120000])).stream.withdrawnAmount ∧
    (runOps ⟨demoStream, 0, 0⟩ [Op.pay 60000]).stream.lastPaymentTime ≤
      (runOps ⟨demoStream, 0, 0⟩ ([Op.pay 60000] ++ [Op.pay 120000])).stream.lastPaymentTime :=
  accrual_monotone ⟨demoStream, 0, 0⟩ _ [Op.pay 60000] [Op.pay 120000] rfl (by decide)

end AutoStream
